import Mathlib

/-!
Shallow embedding of the algorithmic core of `src/models/base_network.py`
(disentangled latent-variable sequence model): the beam-search decoder
(`LSTMDecoder.beam_search_decode`), the greedy autoregressive decode loop
(`ContentDecoder.decode`), the Gaussian-encoder estimators
(`GaussianEncoderBase.encode`, `GaussianEncoderBase.calc_mi`), the
conditional style prior (`SgivenC`), and the shape preconditions of
`LSTMDecoder.forward` / `ContentDecoder.decode`.

Float values are embedded as `ℚ` where the code is executed concretely
(beam search, greedy decode) and as `ℝ` where the claims are analytic
(KL, log-densities, mutual-information estimators).  The opaque decoder
step primitive (embedding lookup + LSTM cell + output projection +
log-softmax) is a function parameter `stepf : H → ℕ → H × List ℚ`
taking the current recurrent state and the previous token id, and
returning the next recurrent state together with the per-vocabulary-id
log-probability row; the batched LSTM call in the source acts
independently on each batch column, so applying `stepf` per hypothesis
is the per-column reading of the same computation.
-/

set_option maxRecDepth 10000

/-- `BeamSearchNode.__init__` (base_network.py lines 11-17): a beam
hypothesis holding the decoder hidden state, a backpointer to the parent
hypothesis, the most recent token id, the cumulative log-probability and
the length counter. -/
inductive BeamSearchNode (H : Type) : Type where
  | mk (h : H) (prevNode : Option (BeamSearchNode H)) (wordid : ℕ) (logp : ℚ) (leng : ℕ)

namespace BeamSearchNode

def h {H : Type} : BeamSearchNode H → H
  | mk x _ _ _ _ => x

def prevNode {H : Type} : BeamSearchNode H → Option (BeamSearchNode H)
  | mk _ p _ _ _ => p

def wordid {H : Type} : BeamSearchNode H → ℕ
  | mk _ _ w _ _ => w

def logp {H : Type} : BeamSearchNode H → ℚ
  | mk _ _ _ l _ => l

def leng {H : Type} : BeamSearchNode H → ℕ
  | mk _ _ _ _ n => n

end BeamSearchNode

/-- The per-example search state of `beam_search_decode`:
`live_hypotheses`, `completed_hypotheses` and the step counter `t`. -/
structure BeamState (H : Type) where
  live : List (BeamSearchNode H)
  completed : List (BeamSearchNode H)
  t : ℕ

/-- One flattened expansion candidate: originating live hypothesis, its
next decoder state, the vocabulary id and the accumulated score.  The
source flattens `decoder_output` to a `[num_live * vocab]` vector and
recovers `(live_id, word_id)` by `// len(vocab)` and `% len(vocab)`;
carrying the tuple directly is the same enumeration in the same
(live-major, vocabulary-minor) order. -/
structure Cand (H : Type) where
  parent : BeamSearchNode H
  hState : H
  wordId : ℕ
  score : ℚ

/-- Stable insertion into a descending-sorted list: the new element goes
after every element with a strictly greater key and before the first
element with a key less than or equal to its own. -/
def insertDescBy {α : Type} (key : α → ℚ) (x : α) : List α → List α
  | [] => [x]
  | y :: ys => if key x < key y then y :: insertDescBy key x ys else x :: y :: ys

/-- Stable descending sort by a rational key (models `torch.topk` value
ordering and Python's stable `sorted(..., reverse=True)`). -/
def sortDescBy {α : Type} (key : α → ℚ) : List α → List α
  | [] => []
  | x :: xs => insertDescBy key x (sortDescBy key xs)

/-- `beam_search_decode` INIT (lines 460-467): one root node per example
holding the initial decoder state, the begin-of-sequence token, the
literal cumulative log-probability `0.1` and length `1`;
`live_hypotheses = [root]`, `completed_hypotheses = []`, `t = 0`. -/
def beamInit {H : Type} (h0 : H) (bosId : ℕ) : BeamState H :=
  ⟨[BeamSearchNode.mk h0 none bosId (1/10) 1], [], 0⟩

/-- One EXPAND step of `beam_search_decode` (lines 470-515).  Returns
`none` where the source raises: `torch.cat` over an empty
`live_hypotheses` list, or `torch.topk` asked for more entries than the
flattened score vector holds. -/
def beamExpand {H : Type} (stepf : H → ℕ → H × List ℚ) (K eosId : ℕ)
    (st : BeamState H) : Option (BeamState H) :=
  if st.live.isEmpty then none
  else
    let t' := st.t + 1
    let expanded := st.live.map (fun n => (n, stepf n.h n.wordid))
    let cands := (expanded.map (fun p =>
      (p.2.2).enum.map (fun wq => Cand.mk p.1 p.2.1 wq.1 (p.1.logp + wq.2)))).flatten
    let k := K - st.completed.length
    if k ≤ cands.length then
      let selected := (sortDescBy Cand.score cands).take k
      let newNodes := selected.map (fun cd =>
        BeamSearchNode.mk cd.hState (some cd.parent) cd.wordId cd.score t')
      let newCompleted := newNodes.filter (fun n => n.wordid == eosId)
      let newLive := newNodes.filter (fun n => n.wordid != eosId)
      some ⟨newLive, st.completed ++ newCompleted, t'⟩
    else none

/-- The `while len(completed_hypotheses) < K and t < max_t` loop of
`beam_search_decode`, with explicit fuel; `t` increments on every pass,
so fuel `max_t` runs the loop to its own exit condition.  The source's
`if len(completed_hypotheses) == K: break` re-checks the same condition
the loop head tests next. -/
def beamLoop {H : Type} (stepf : H → ℕ → H × List ℚ) (K eosId maxT : ℕ) :
    ℕ → BeamState H → Option (BeamState H)
  | 0, st => some st
  | Nat.succ fuel, st =>
    if st.completed.length < K ∧ st.t < maxT then
      match beamExpand stepf K eosId st with
      | some st' => beamLoop stepf K eosId maxT fuel st'
      | none => none
    else some st

/-- Backpointer walk of FINALIZE (lines 520-529): collect token ids from
the chosen node back to the root, then reverse — i.e. root-to-node
order, the root's own token included.  `fuel` bounds the walk; any fuel
at least the chain depth (at most `max_t` parents) yields the full
path. -/
def pathTokensFuel {H : Type} : ℕ → BeamSearchNode H → List ℕ
  | 0, n => [n.wordid]
  | Nat.succ fuel, n =>
    match n.prevNode with
    | none => [n.wordid]
    | some p => pathTokensFuel fuel p ++ [n.wordid]

/-- `beam_search_decode` for a single example (one iteration of the
`for idx in range(batch_size)` loop): INIT, the EXPAND loop, then
FINALIZE (append still-live hypotheses to `completed_hypotheses`, sort
by raw cumulative log-probability descending, reconstruct the top-ranked
path).  `none` models an uncaught runtime error; an empty hypothesis
list at FINALIZE would raise on `utterances[0]`. -/
def beamSearchExample {H : Type} (stepf : H → ℕ → H × List ℚ)
    (id2word : ℕ → String) (bosId eosId K maxT : ℕ) (h0 : H) :
    Option (List String) :=
  match beamLoop stepf K eosId maxT maxT (beamInit h0 bosId) with
  | none => none
  | some st =>
    match sortDescBy BeamSearchNode.logp (st.completed ++ st.live) with
    | [] => none
    | n :: _ => some ((pathTokensFuel (maxT + 1) n).map id2word)

/-- `LSTMDecoder.beam_search_decode` over a batch: the latent code `z`
of each example fixes its initial decoder state (`tanh` of
`trans_linear(z)`) and conditions every decoder step; both are abstract
here, as `hInit : Z → H` and `stepf : Z → H → ℕ → H × List ℚ`. -/
def beam_search_decode {Z H : Type} (stepf : Z → H → ℕ → H × List ℚ)
    (hInit : Z → H) (id2word : ℕ → String) (bosId eosId K maxT : ℕ)
    (zs : List Z) : List (Option (List String)) :=
  zs.map (fun z => beamSearchExample (stepf z) id2word bosId eosId K maxT (hInit z))

/-- Size of an optional beam state: live plus completed hypotheses
(an aborted expansion counts as zero). -/
def beamSize {H : Type} : Option (BeamState H) → ℕ
  | none => 0
  | some st => st.live.length + st.completed.length

/-- The four-word demo vocabulary of the end-to-end scenario:
ids `0 = <s>`, `1 = </s>`, `2 = a`, `3 = b`. -/
def demoVocab : List String := ["<s>", "</s>", "a", "b"]

def demoId2word (w : ℕ) : String := demoVocab.getD w ""

/-- A forced decoder over the demo vocabulary: the recurrent state
counts steps; step 1 puts probability ≈ 1 on token `a` (log-prob
`-1/1000`, all alternatives below `-10`), every later step puts
probability ≈ 1 on `</s>`. -/
def forcedStep : ℕ → ℕ → ℕ × List ℚ := fun h _ =>
  (h + 1, if h = 0 then [-20, -30, -(1/1000), -10] else [-20, -(1/1000), -15, -11])

/-! ## ContentDecoder.decode — greedy autoregressive loop (lines 203-248) -/

/-- Per-example state of the greedy decode loop: decoder hidden state,
current input token, the termination mask bit, and the collected output
words. -/
structure GreedyEx (GH : Type) where
  h : GH
  tok : ℕ
  mask : Bool
  out : List String

/-- Index of the first maximum of a logits row (`torch.argmax` over the
vocabulary dimension; an empty row would raise, modelled as index 0 and
never reached with a non-empty vocabulary). -/
def argmaxIdx (l : List ℚ) : ℕ :=
  match l.enum with
  | [] => 0
  | p :: ps => (ps.foldl (fun best q => if best.2 < q.2 then q else best) p).1

/-- One pass of the greedy loop body over the whole batch: run the
decoder step, pick the arg-max token, append it to the output of every
example whose mask is still set, then clear the mask of examples that
just emitted the end-of-sequence token.  The source appends
(`decoded_batch[i].append`) before recomputing `mask`, so the
end-of-sequence token itself is appended. -/
def greedyStepAll {GH : Type} (gstep : GH → ℕ → GH × List ℚ) (eosId : ℕ)
    (id2word : ℕ → String) (exs : List (GreedyEx GH)) : List (GreedyEx GH) :=
  exs.map (fun e =>
    let r := gstep e.h e.tok
    let sel := argmaxIdx r.2
    ⟨r.1, sel, e.mask && (sel != eosId),
      if e.mask then e.out ++ [id2word sel] else e.out⟩)

/-- The `while mask.sum().item() != 0 and length_c < 100` loop of
`ContentDecoder.decode` with explicit fuel; `length_c` increments every
pass, so fuel `100` exhausts the loop's own bound. -/
def greedyLoop {GH : Type} (gstep : GH → ℕ → GH × List ℚ) (eosId : ℕ)
    (id2word : ℕ → String) : ℕ → ℕ → List (GreedyEx GH) → List (GreedyEx GH)
  | 0, _, exs => exs
  | Nat.succ fuel, lengthC, exs =>
    if (exs.any (fun e => e.mask)) = true ∧ lengthC < 100 then
      greedyLoop gstep eosId id2word fuel (lengthC + 1) (greedyStepAll gstep eosId id2word exs)
    else exs

/-- `ContentDecoder.decode` with `greedy=True` (lines 203-248): every
example starts at the begin-of-sequence token with its mask set and an
empty output list; the loop runs until all masks clear or `length_c`
reaches 100; the per-example output lists are returned.  Each example's
initial decoder state (`tanh(trans_linear(c))` from its content code) is
the `h0s` entry; the batched LSTM acts on batch columns independently,
so the per-example `gstep` is the per-column reading of the same
computation. -/
def ContentDecoder.decode {GH : Type} (gstep : GH → ℕ → GH × List ℚ)
    (id2word : ℕ → String) (bosId eosId : ℕ) (h0s : List GH) : List (List String) :=
  (greedyLoop gstep eosId id2word 100 1
    (h0s.map (fun h0 => ⟨h0, bosId, true, []⟩))).map (fun e => e.out)

/-! ## Shape preconditions of LSTMDecoder.forward and ContentDecoder.decode -/

/-- An explicit failure signal: `shapeMismatch` models a failed
`assert` on tensor sizes, `unsupported` models `raise
NotImplementedError` / a failed single-sample assert. -/
inductive DecodeError : Type where
  | shapeMismatch
  | unsupported
  deriving DecidableEq

/-- The size triple `(n_sample, batch, dim)` of a latent sample tensor
`[n_sample, batch, dim]`. -/
structure LatentShape : Type where
  n_sample : ℕ
  batch : ℕ
  dim : ℕ
  deriving DecidableEq

/-- The precondition checks of `LSTMDecoder.forward` (lines 358-374) in
source order: `assert (n_sample_c == n_sample_s)`,
`assert (batch_size_c == batch_size_s)`, then the `n_sample_c == 1`
branch whose `else` raises `NotImplementedError`.  The tensor
computation of the validated branch is the opaque `body`. -/
def LSTMDecoder.forwardChecks (R : Type) (body : R) (c s : LatentShape) :
    Except DecodeError R :=
  if c.n_sample ≠ s.n_sample then Except.error DecodeError.shapeMismatch
  else if c.batch ≠ s.batch then Except.error DecodeError.shapeMismatch
  else if c.n_sample = 1 then Except.ok body
  else Except.error DecodeError.unsupported

/-- The precondition check of `ContentDecoder.decode` (lines 203-206):
`assert (n_sample_c == 1)` before any decoding happens. -/
def ContentDecoder.decodeChecks (R : Type) (body : R) (c : LatentShape) :
    Except DecodeError R :=
  if c.n_sample = 1 then Except.ok body else Except.error DecodeError.unsupported

def exceptIsOk {E R : Type} : Except E R → Bool
  | Except.ok _ => true
  | Except.error _ => false

/-! ## Gaussian estimators over ℝ (GaussianEncoderBase, SgivenC) -/

noncomputable section

open scoped BigOperators

/-- `GaussianEncoderBase.reparameterize` (lines 45-53) for one example
and one sample: `mean + eps * exp(0.5 * logvar)`, with the standard
normal draw `eps` passed in explicitly. -/
def reparameterize {nz : ℕ} (mu logvar eps : Fin nz → ℝ) : Fin nz → ℝ :=
  fun d => mu d + eps d * Real.exp (0.5 * logvar d)

/-- `GaussianEncoderBase.encode` (lines 36-43) for one example: the
reparameterized content and style samples together with the analytic KL
term `0.5*(mu_c^2 + exp(logvar_c) - logvar_c - 1).sum() + 0.5*(mu_s^2 +
exp(logvar_s) - logvar_s - 1).sum()`. -/
def encode {nc ns : ℕ} (mu_c logvar_c : Fin nc → ℝ) (mu_s logvar_s : Fin ns → ℝ)
    (eps_c : Fin nc → ℝ) (eps_s : Fin ns → ℝ) :
    (Fin nc → ℝ) × (Fin ns → ℝ) × ℝ :=
  (reparameterize mu_c logvar_c eps_c, reparameterize mu_s logvar_s eps_s,
    0.5 * (∑ d, ((mu_c d) ^ 2 + Real.exp (logvar_c d) - logvar_c d - 1)) +
      0.5 * (∑ d, ((mu_s d) ^ 2 + Real.exp (logvar_s d) - logvar_s d - 1)))

/-- The spec's per-factor KL formula:
`0.5 * sum_over_dims(mean^2 + exp(logvar) - logvar - 1)`. -/
def klTerm {nz : ℕ} (mean logvar : Fin nz → ℝ) : ℝ :=
  0.5 * ∑ d, ((mean d) ^ 2 + Real.exp (logvar d) - logvar d - 1)

/-- Modelled from the spec: the `log_sum_exp` helper imported from
`models/utils` (not present under `src/`), described by the spec as a
numerically stable log-sum-exp; mathematically it computes
`log (∑ exp)` over the given index. -/
def log_sum_exp {B : ℕ} (f : Fin B → ℝ) : ℝ :=
  Real.log (∑ j, Real.exp (f j))

/-- Log-density of a diagonal-covariance multivariate Gaussian with
mean `mean` and per-dimension variance `var` at the point `x`:
`-0.5 * (D*log(2π) + Σ log var_d + Σ (x_d - mean_d)^2 / var_d)`
(`MultivariateNormal(mean, diag(var)).log_prob(x)`). -/
def gaussLogProb {D : ℕ} (mean var x : Fin D → ℝ) : ℝ :=
  -0.5 * ((D : ℝ) * Real.log (2 * Real.pi) + (∑ d, Real.log (var d)) +
    ∑ d, (x d - mean d) ^ 2 / var d)

/-- The one latent sample per example drawn inside `calc_mi` via
`self.reparameterize(mu, logvar, 1)`. -/
def zSample {B nz : ℕ} (mu logvar eps : Fin B → Fin nz → ℝ) : Fin B → Fin nz → ℝ :=
  fun i => reparameterize (mu i) (logvar i) (eps i)

/-- `GaussianEncoderBase.calc_mi` (lines 78-97), written in the source's
operational order: the closed-form negative entropy averaged over the
batch; one reparameterized sample per example; the `[B, B]` matrix of
log-densities `log_density[j, i]` of sample `i` under distribution `j`
(broadcast of `z_samples - mu.unsqueeze(1)` with `var = logvar.exp()`);
`log_qz = log_sum_exp(log_density, dim=0) - log(batch)`; the estimate
`neg_entropy - log_qz.mean()`. -/
def calc_mi {B nz : ℕ} (mu logvar eps : Fin B → Fin nz → ℝ) : ℝ :=
  let neg_entropy := (∑ i, (-0.5 * (nz : ℝ) * Real.log (2 * Real.pi) -
    0.5 * ∑ d, (1 + logvar i d))) / (B : ℝ)
  let z_samples := zSample mu logvar eps
  let log_density := fun (j i : Fin B) =>
    -0.5 * (∑ d, (z_samples i d - mu j d) ^ 2 / Real.exp (logvar j d)) -
      0.5 * ((nz : ℝ) * Real.log (2 * Real.pi) + ∑ d, logvar j d)
  let log_qz := fun i => log_sum_exp (fun j => log_density j i) - Real.log (B : ℝ)
  neg_entropy - (∑ i, log_qz i) / (B : ℝ)

/-- The spec's closed-form negative entropy:
`-0.5*nz*log(2π) - 0.5*sum(1+logvar)`, averaged over the batch. -/
def negEntropySpec {B nz : ℕ} (logvar : Fin B → Fin nz → ℝ) : ℝ :=
  (∑ i, (-0.5 * (nz : ℝ) * Real.log (2 * Real.pi) - 0.5 * ∑ d, (1 + logvar i d))) / (B : ℝ)

/-- The spec's marginal log-density of sample `i`: log-sum-exp across
the distribution index of the Gaussian log-densities of `z i` under each
distribution `j`, minus `log(batch_size)`. -/
def logQzSpec {B nz : ℕ} (mu logvar : Fin B → Fin nz → ℝ)
    (z : Fin B → Fin nz → ℝ) (i : Fin B) : ℝ :=
  log_sum_exp (fun j => gaussLogProb (mu j) (fun d => Real.exp (logvar j d)) (z i)) -
    Real.log (B : ℝ)

/-! ### SgivenC -/

/-- Matrix-vector product of a weight matrix (`nn.Linear` with
`bias=False`). -/
def matvec {m n : ℕ} (W : Fin m → Fin n → ℝ) (x : Fin n → ℝ) : Fin m → ℝ :=
  fun i => ∑ j, W i j * x j

/-- Elementwise `ReLU`. -/
def reluVec {n : ℕ} (x : Fin n → ℝ) : Fin n → ℝ :=
  fun i => max (x i) 0

/-- `SgivenC.forward` (lines 264-268): `linear2(relu(linear1(c)))`
chunked into `(mean_s, logvar_s)`; the `chunk(2, -1)` of the size-`2*ns`
output row is its first and second halves. -/
def SgivenC.forward {nc ns m : ℕ} (W1 : Fin m → Fin nc → ℝ)
    (W2 : Fin (ns + ns) → Fin m → ℝ) (c : Fin nc → ℝ) :
    (Fin ns → ℝ) × (Fin ns → ℝ) :=
  let out := matvec W2 (reluVec (matvec W1 c))
  (fun d => out (Fin.castAdd ns d), fun d => out (Fin.natAdd ns d))

/-- `SgivenC.get_log_prob_total_distribution` (lines 292-297):
`(MSELoss(sum)(mean_s, mean_orig) + MSELoss(sum)(exp(logvar_s),
exp(logvar_orig))) / batch_size` where `(mean_s, logvar_s)` is the
projection's forward output on the content batch. -/
def SgivenC.get_log_prob_total_distribution {nc ns m B : ℕ}
    (W1 : Fin m → Fin nc → ℝ) (W2 : Fin (ns + ns) → Fin m → ℝ)
    (mean_s_original logvar_s_original : Fin B → Fin ns → ℝ)
    (c : Fin B → Fin nc → ℝ) : ℝ :=
  let mean_s := fun i => (SgivenC.forward W1 W2 (c i)).1
  let logvar_s := fun i => (SgivenC.forward W1 W2 (c i)).2
  ((∑ i, ∑ d, (mean_s i d - mean_s_original i d) ^ 2) +
    ∑ i, ∑ d, (Real.exp (logvar_s i d) - Real.exp (logvar_s_original i d)) ^ 2) / (B : ℝ)

/-- `SgivenC.get_s_c_mi` (lines 299-323) on the collapsed
`[batch, dim]` views: project the content batch, build the jittered
diagonal covariance `exp(logvar) + 1e-6`, form the kernel matrix
`kernel[i, j] = log N(s_i; mean_j, cov_j)`, the `{+1, -1}` mask with
`mask[i, rand_idx[i]] = -1` then `mask[i, i] += 1`, and return
`(kernel * mask).sum() / batch_size`.  The per-call random negative
indices are the explicit argument `rand_idx`. -/
def SgivenC.get_s_c_mi {nc ns m B : ℕ} (W1 : Fin m → Fin nc → ℝ)
    (W2 : Fin (ns + ns) → Fin m → ℝ) (s : Fin B → Fin ns → ℝ)
    (c : Fin B → Fin nc → ℝ) (rand_idx : Fin B → Fin B) : ℝ :=
  let mean_s := fun i => (SgivenC.forward W1 W2 (c i)).1
  let logvar_s := fun i => (SgivenC.forward W1 W2 (c i)).2
  let cov_s := fun i d => Real.exp (logvar_s i d) + 1e-6
  let kernel := fun (i j : Fin B) => gaussLogProb (mean_s j) (cov_s j) (s i)
  let mask := fun (i j : Fin B) =>
    (if j = rand_idx i then (-1 : ℝ) else 0) + (if j = i then 1 else 0)
  (∑ i, ∑ j, kernel i j * mask i j) / (B : ℝ)

/-- The spec's contrastive estimator: the batch average of
`log p(sample_i | content_i) - log p(sample_i | content_{j_i})` with the
random negative index `j_i = rand_idx i`. -/
def contrastiveMiSpec {nc ns m B : ℕ} (W1 : Fin m → Fin nc → ℝ)
    (W2 : Fin (ns + ns) → Fin m → ℝ) (s : Fin B → Fin ns → ℝ)
    (c : Fin B → Fin nc → ℝ) (rand_idx : Fin B → Fin B) : ℝ :=
  let mean_s := fun i => (SgivenC.forward W1 W2 (c i)).1
  let cov_s := fun i d => Real.exp ((SgivenC.forward W1 W2 (c i)).2 d) + 1e-6
  (∑ i, (gaussLogProb (mean_s i) (cov_s i) (s i) -
    gaussLogProb (mean_s (rand_idx i)) (cov_s (rand_idx i)) (s i))) / (B : ℝ)

end

/-! ## Helper lemmas -/

theorem length_insertDescBy {α : Type} (key : α → ℚ) (x : α) (l : List α) :
    (insertDescBy key x l).length = l.length + 1 := by
  induction l with
  | nil => rfl
  | cons y ys ih =>
    unfold insertDescBy
    split
    · simpa using ih
    · simp

theorem length_sortDescBy {α : Type} (key : α → ℚ) (l : List α) :
    (sortDescBy key l).length = l.length := by
  induction l with
  | nil => rfl
  | cons x xs ih => simp [sortDescBy, length_insertDescBy, ih]

theorem length_filter_split {α : Type} (l : List α) (p q : α → Bool)
    (hq : ∀ a, q a = !(p a)) :
    (l.filter p).length + (l.filter q).length = l.length := by
  induction l with
  | nil => rfl
  | cons a l ih =>
    simp only [List.filter_cons, hq]
    cases hpa : p a <;> simp [List.length_cons] <;> omega

/-- Shape of a successful EXPAND: exactly `K - |completed|` new nodes
are created, split between the new live set and the completed set by
the end-of-sequence test, with the step counter incremented. -/
theorem beamExpand_eq_some {H : Type} {stepf : H → ℕ → H × List ℚ} {K eosId : ℕ}
    {st st' : BeamState H} (h : beamExpand stepf K eosId st = some st') :
    ∃ newNodes : List (BeamSearchNode H),
      newNodes.length = K - st.completed.length ∧
      st'.live = newNodes.filter (fun n => n.wordid != eosId) ∧
      st'.completed = st.completed ++ newNodes.filter (fun n => n.wordid == eosId) := by
  unfold beamExpand at h
  split at h
  · exact absurd h (by simp)
  · simp only [] at h
    split at h
    · rename_i hk
      injection h with h
      subst h
      refine ⟨_, ?_, rfl, rfl⟩
      simp only [List.length_map, List.length_take, length_sortDescBy]
      omega
    · exact absurd h (by simp)

/-- Hypothesis-count bookkeeping of a successful EXPAND under the loop
guard: the live and completed sets together hold exactly `K` nodes. -/
theorem beamExpand_counts {H : Type} {stepf : H → ℕ → H × List ℚ} {K eosId : ℕ}
    {st st' : BeamState H} (hK : st.completed.length < K)
    (h : beamExpand stepf K eosId st = some st') :
    st'.live.length + st'.completed.length = K := by
  obtain ⟨newNodes, hlen, hlive, hcomp⟩ := beamExpand_eq_some h
  have hsplit := length_filter_split newNodes
    (fun n => n.wordid == eosId) (fun n => n.wordid != eosId) (fun a => rfl)
  rw [hlive, hcomp, List.length_append]
  omega

/-- The non-emptiness invariant is preserved through any prefix of the
EXPAND loop. -/
theorem beamLoop_live_invariant {H : Type} (stepf : H → ℕ → H × List ℚ)
    (K eosId maxT : ℕ) :
    ∀ (n : ℕ) (st st' : BeamState H),
      (st.completed.length < K → st.live ≠ []) →
      beamLoop stepf K eosId maxT n st = some st' →
      (st'.completed.length < K → st'.live ≠ []) := by
  intro n
  induction n with
  | zero =>
    intro st st' hst h
    injection h with h
    subst h
    exact hst
  | succ fuel ih =>
    intro st st' hst h
    unfold beamLoop at h
    split at h
    · rename_i hguard
      cases hexp : beamExpand stepf K eosId st with
      | none => rw [hexp] at h; exact absurd h (by simp)
      | some st1 =>
        rw [hexp] at h
        refine ih st1 st' ?_ h
        intro hlt
        have hcount := beamExpand_counts hguard.1 hexp
        have : 0 < st1.live.length := by omega
        exact List.ne_nil_of_length_pos this
    · injection h with h
      subst h
      exact hst

/-! ## Claim theorems -/

/-- C1 counterexample: the root BeamNode of `beam_search_decode` does
not carry cumulative log-probability 0 — its `logProb` argument is the
literal `0.1`. -/
theorem beam_init_root_logp_ne_zero :
    ((beamInit (0 : ℕ) 0).live.map BeamSearchNode.logp) ≠ [0] := by
  norm_num [beamInit, BeamSearchNode.logp]

/-- C1 (amended): the root BeamNode created at INIT holds the initial
decoder state, the begin-of-sequence token, cumulative log-probability
`0.1`, and length 1, with `live = [root]` and `completed = []`. -/
theorem beam_init_state {H : Type} (h0 : H) (bosId : ℕ) :
    (beamInit h0 bosId).live =
      [BeamSearchNode.mk h0 none bosId (1/10) 1] ∧
    (beamInit h0 bosId).completed = [] ∧ (beamInit h0 bosId).t = 0 :=
  ⟨rfl, rfl, rfl⟩

/-- C2 counterexample: with vocabulary `{<s>, </s>, a, b}`, a decoder
forced to predict `a` (probability ≈ 1) at step 1 and `</s>`
(probability ≈ 1) at step 2, and `K = 2`, `max_t = 3`,
`beam_search_decode` does NOT return `["a", "</s>"]` for the examples:
path reconstruction walks back to the root and includes its
begin-of-sequence token. -/
theorem beam_search_forced_top_ne_claim :
    beam_search_decode (fun _ : Unit => forcedStep) (fun _ => 0) demoId2word
      0 1 2 3 [(), ()] ≠ [some ["a", "</s>"], some ["a", "</s>"]] := by
  have h : beam_search_decode (fun _ : Unit => forcedStep) (fun _ => 0) demoId2word
      0 1 2 3 [(), ()] = [some ["<s>", "a", "</s>"], some ["<s>", "a", "</s>"]] := by
    with_unfolding_all rfl
  rw [h]
  decide

/-- C2 (amended): in the same forced scenario, `beam_search_decode` with
`K = 2`, `max_t = 3` returns `["<s>", "a", "</s>"]` — the forced
sequence preceded by the begin-of-sequence token — as the top-ranked
sequence for every example of the batch. -/
theorem beam_search_forced_top :
    beam_search_decode (fun _ : Unit => forcedStep) (fun _ => 0) demoId2word
      0 1 2 3 [(), ()] =
      [some ["<s>", "a", "</s>"], some ["<s>", "a", "</s>"]] := by
  with_unfolding_all rfl

/-- C3 counterexample: with the same forced decoder, the greedy decode
loop of `ContentDecoder.decode` does NOT return `["a"]` per example:
the end-of-sequence token is appended before the mask update removes
the example from the batch. -/
theorem greedy_decode_forced_ne_claim :
    ContentDecoder.decode forcedStep demoId2word 0 1 [0, 0] ≠ [["a"], ["a"]] := by
  have h : ContentDecoder.decode forcedStep demoId2word 0 1 [0, 0] =
      [["a", "</s>"], ["a", "</s>"]] := by
    with_unfolding_all rfl
  rw [h]
  decide

/-- C3 (amended): with the forced decoder, the greedy decode loop
returns `["a", "</s>"]` per example — the end-of-sequence token IS
included, because each selected token is appended to every still-masked
example's output before the mask is recomputed. -/
theorem greedy_decode_forced :
    ContentDecoder.decode forcedStep demoId2word 0 1 [0, 0] =
      [["a", "</s>"], ["a", "</s>"]] := by
  with_unfolding_all rfl

/-- C4: at the end of every EXPAND step of `beam_search_decode` (i.e.
after `beamExpand` from any state satisfying the loop guard
`|completed| < K`), the number of live plus completed hypotheses is at
most `K`. -/
theorem beam_expand_size_bound {H : Type} (stepf : H → ℕ → H × List ℚ)
    (K eosId : ℕ) (st : BeamState H) (hK : st.completed.length < K) :
    beamSize (beamExpand stepf K eosId st) ≤ K := by
  cases hexp : beamExpand stepf K eosId st with
  | none => simp [beamSize]
  | some st' =>
    have hcount := beamExpand_counts hK hexp
    simp [beamSize, hcount]

/-- C4 witness: the bound at a concrete expansion step of the forced
demo scenario. -/
theorem beam_expand_size_bound_witness :
    (beamInit (0 : ℕ) 0).completed.length < 2 ∧
    beamSize (beamExpand forcedStep 2 1 (beamInit (0 : ℕ) 0)) ≤ 2 :=
  ⟨by decide, beam_expand_size_bound forcedStep 2 1 (beamInit (0 : ℕ) 0) (by decide)⟩

/-- C10: whenever the EXPAND loop of `beam_search_decode`, started from
the INIT state, is about to run another EXPAND iteration (the state
after `n` successful steps still satisfies the guard
`|completed| < K ∧ t < max_t`), the live-hypothesis set is non-empty —
so the batched concatenations over `live_hypotheses` never see an empty
list. -/
theorem beam_loop_live_ne_nil {H : Type} (stepf : H → ℕ → H × List ℚ)
    (K eosId maxT bosId : ℕ) (h0 : H) (n : ℕ) (st' : BeamState H)
    (h : beamLoop stepf K eosId maxT n (beamInit h0 bosId) = some st')
    (hK : st'.completed.length < K) (_ht : st'.t < maxT) :
    st'.live ≠ [] :=
  beamLoop_live_invariant stepf K eosId maxT n (beamInit h0 bosId) st'
    (fun _ => by simp [beamInit]) h hK

/-- C10 witness: the invariant instantiated at the entry of the first
EXPAND iteration of the forced demo scenario. -/
theorem beam_loop_live_ne_nil_witness :
    beamLoop forcedStep 2 1 3 0 (beamInit (0 : ℕ) 0) = some (beamInit (0 : ℕ) 0) ∧
    (beamInit (0 : ℕ) 0).completed.length < 2 ∧ (beamInit (0 : ℕ) 0).t < 3 ∧
    (beamInit (0 : ℕ) 0).live ≠ [] :=
  ⟨rfl, by decide, by decide,
    beam_loop_live_ne_nil forcedStep 2 1 3 0 0 0 (beamInit (0 : ℕ) 0) rfl
      (by decide) (by decide)⟩

/-- C5: the KL component returned by `encode` is the sum of the content
and style factors' `0.5 * sum_over_dims(mean^2 + exp(logvar) - logvar - 1)`
terms, and at `mean = 0`, `logvar = 0` in every dimension of both
factors it is exactly 0. -/
theorem encode_kl_spec (nc ns : ℕ) (mu_c logvar_c : Fin nc → ℝ)
    (mu_s logvar_s : Fin ns → ℝ) (eps_c : Fin nc → ℝ) (eps_s : Fin ns → ℝ) :
    (encode mu_c logvar_c mu_s logvar_s eps_c eps_s).2.2 =
      klTerm mu_c logvar_c + klTerm mu_s logvar_s ∧
    (encode (fun _ : Fin nc => 0) (fun _ => 0) (fun _ : Fin ns => 0) (fun _ => 0)
      eps_c eps_s).2.2 = 0 := by
  constructor
  · rfl
  · simp [encode, Real.exp_zero]

/-- The per-pair log-density computed inside `calc_mi` is the Gaussian
log-density of sample `i` under distribution `j` with variances
`exp(logvar_j)`. -/
theorem calc_mi_density_eq {B nz : ℕ} (mu logvar : Fin B → Fin nz → ℝ)
    (z : Fin B → Fin nz → ℝ) (j i : Fin B) :
    -0.5 * (∑ d, (z i d - mu j d) ^ 2 / Real.exp (logvar j d)) -
      0.5 * ((nz : ℝ) * Real.log (2 * Real.pi) + ∑ d, logvar j d) =
    gaussLogProb (mu j) (fun d => Real.exp (logvar j d)) (z i) := by
  unfold gaussLogProb
  rw [show (∑ d, Real.log (Real.exp (logvar j d))) = ∑ d, logvar j d from
    Finset.sum_congr rfl (fun d _ => Real.log_exp _)]
  ring

/-- C6: `calc_mi` returns the batch-averaged negative entropy minus the
batch mean of `log_qz`, where `log_qz i` is the log-sum-exp across the
distribution index of the Gaussian log-densities of sample `i` under
every distribution `j`, minus `log(batch_size)`. -/
theorem calc_mi_spec (B nz : ℕ) (mu logvar eps : Fin B → Fin nz → ℝ) :
    calc_mi mu logvar eps =
      negEntropySpec logvar -
        (∑ i, logQzSpec mu logvar (zSample mu logvar eps) i) / (B : ℝ) := by
  unfold calc_mi negEntropySpec logQzSpec
  simp only []
  congr 1
  congr 1
  refine Finset.sum_congr rfl (fun i _ => ?_)
  congr 1
  congr 1
  funext j
  exact calc_mi_density_eq mu logvar (zSample mu logvar eps) j i

/-- C7: for every draw of the per-example random negative indices,
`get_s_c_mi` equals the batch average of
`log p(sample_i | content_i) - log p(sample_i | content_{j_i})`, the
contrastive estimator of the spec; the `rand_idx` argument models the
fresh uniform draw the source takes on every call. -/
theorem get_s_c_mi_spec (nc ns m B : ℕ) (W1 : Fin m → Fin nc → ℝ)
    (W2 : Fin (ns + ns) → Fin m → ℝ) (s : Fin B → Fin ns → ℝ)
    (c : Fin B → Fin nc → ℝ) (rand_idx : Fin B → Fin B) :
    SgivenC.get_s_c_mi W1 W2 s c rand_idx =
      contrastiveMiSpec W1 W2 s c rand_idx := by
  unfold SgivenC.get_s_c_mi contrastiveMiSpec
  simp only []
  congr 1
  refine Finset.sum_congr rfl (fun i _ => ?_)
  simp only [mul_add, Finset.sum_add_distrib, mul_ite, mul_neg_one, mul_zero, mul_one,
    Finset.sum_ite_eq', Finset.mem_univ, if_true]
  ring

/-- C8: `get_log_prob_total_distribution` evaluated with reference
parameters equal to the projection network's own forward output on the
same content batch returns exactly 0. -/
theorem distribution_match_loss_self (nc ns m B : ℕ) (W1 : Fin m → Fin nc → ℝ)
    (W2 : Fin (ns + ns) → Fin m → ℝ) (c : Fin B → Fin nc → ℝ) :
    SgivenC.get_log_prob_total_distribution W1 W2
      (fun i => (SgivenC.forward W1 W2 (c i)).1)
      (fun i => (SgivenC.forward W1 W2 (c i)).2) c = 0 := by
  unfold SgivenC.get_log_prob_total_distribution
  simp [sub_self]

/-- C9: a sample-count or batch-size mismatch between the content and
style tensors, or a multi-sample request where only single-sample
decoding is supported, makes `LSTMDecoder.forward` fail with an
explicit error instead of returning a result, and a multi-sample
request likewise makes `ContentDecoder.decode`'s precondition check
fail. -/
theorem decoder_shape_checks (R : Type) (body : R) (c s : LatentShape) :
    ((c.n_sample ≠ s.n_sample ∨ c.batch ≠ s.batch ∨ 1 < c.n_sample) →
      exceptIsOk (LSTMDecoder.forwardChecks R body c s) = false) ∧
    (1 < c.n_sample → exceptIsOk (ContentDecoder.decodeChecks R body c) = false) := by
  constructor
  · intro hbad
    unfold LSTMDecoder.forwardChecks
    split
    · rfl
    · split
      · rfl
      · split
        · rename_i h1 h2 h3
          rcases hbad with hb | hb | hb <;> omega
        · rfl
  · intro hmulti
    unfold ContentDecoder.decodeChecks
    split
    · rename_i h1
      omega
    · rfl

/-- C9 witness: concrete shape triples with a sample-count mismatch and
a multi-sample request are both rejected. -/
theorem decoder_shape_checks_witness :
    exceptIsOk (LSTMDecoder.forwardChecks Unit () ⟨2, 3, 4⟩ ⟨1, 3, 4⟩) = false ∧
    exceptIsOk (ContentDecoder.decodeChecks Unit () ⟨2, 3, 4⟩) = false :=
  ⟨(decoder_shape_checks Unit () ⟨2, 3, 4⟩ ⟨1, 3, 4⟩).1 (Or.inl (by decide)),
    (decoder_shape_checks Unit () ⟨2, 3, 4⟩ ⟨1, 3, 4⟩).2 (by decide)⟩
